import Mathlib

/-!
Verification of the glitch-effect image pipeline.

The raster buffer is modelled as a function from byte index to byte value
(row-major RGBA, four bytes per texel, `data.length = W*H*4`).  Arithmetic
performed by the host on JS numbers is modelled over `ℚ`, except where the
source calls `Math.sin`, which is modelled by a sine parameter `ℚ → ℝ`
instantiated with `Real.sin` in the theorems.  Stores into a
`Uint8ClampedArray` clamp to `[0, 255]` and round to nearest with ties to
even, following the ECMAScript `ToUint8Clamp` conversion.  Calls to
`Math.random` are modelled by oracle parameters `ℕ → ℚ`, one value per
draw, indexed in the order the source draws them.
-/

/-- A raster buffer: byte value at each byte index. -/
abbrev Buf : Type := ℕ → ℕ

/-- Write one byte of a buffer. -/
def upd (d : Buf) (i v : ℕ) : Buf := fun j => if j = i then v else d j

/-- ECMAScript ToUint8Clamp rounding: round to nearest, ties to even. -/
def roundHalfEven (q : ℚ) : ℤ :=
  let f := ⌊q⌋
  if q - f < 1/2 then f
  else if 1/2 < q - f then f + 1
  else if 2 ∣ f then f else f + 1

/-- Store of a JS number into a `Uint8ClampedArray` cell (ℚ-valued case). -/
def clampByte (q : ℚ) : ℕ :=
  if q ≤ 0 then 0
  else if 255 ≤ q then 255
  else (roundHalfEven q).toNat

/-- Rounding for ℝ-valued stores, same rule as `roundHalfEven`. -/
noncomputable def roundHalfEvenR (x : ℝ) : ℤ :=
  let f := ⌊x⌋
  if x - f < 1/2 then f
  else if 1/2 < x - f then f + 1
  else if 2 ∣ f then f else f + 1

/-- Store of a JS number into a `Uint8ClampedArray` cell (ℝ-valued case). -/
noncomputable def clampByteR (x : ℝ) : ℕ :=
  if x ≤ 0 then 0
  else if 255 ≤ x then 255
  else (roundHalfEvenR x).toNat

/-- The four channel bytes of texel `p`. -/
def readTexel (d : Buf) (p : ℕ) : ℕ × ℕ × ℕ × ℕ :=
  (d (4 * p), d (4 * p + 1), d (4 * p + 2), d (4 * p + 3))

/-- The effect settings record from `EffectControls.tsx`: ten intensity
parameters in `[0,100]`, the anaglyph pixel offset, and the CRT bezel flag. -/
structure EffectSettings where
  scanlines : ℕ
  chromatic : ℕ
  colorBleed : ℕ
  noise : ℕ
  pixelation : ℕ
  crtBezel : Bool
  datamosh : ℕ
  pixelSort : ℕ
  displacement : ℕ
  colorShift : ℕ
  anaglyph : ℕ
  anaglyphOffset : ℕ

/-- Outcome of `ImageProcessor.validateImage`: either valid, or a structured
rendering of the reason string (the dimension cap, or the rounded megabyte
estimate together with the megabyte maximum). -/
inductive ValidationResult where
  | ok : ValidationResult
  | dimensionsTooLarge (maxSize : ℕ) : ValidationResult
  | insufficientMemory (estimatedMB maxMB : ℕ) : ValidationResult
deriving DecidableEq

/-- `ImageProcessor.validateImage`: the dimension check against
`MAX_CANVAS_SIZE = 8000` runs first, then the memory check against
`MAX_MEMORY_USAGE = 200 * 1024 * 1024` bytes; the reported megabyte counts
use `Math.round(bytes / 1024 / 1024)`. -/
def validateImage (width height : ℕ) : ValidationResult :=
  let pixelCount := width * height
  let estimatedMemory := pixelCount * 4
  if 8000 < width ∨ 8000 < height then
    .dimensionsTooLarge 8000
  else if 200 * 1024 * 1024 < estimatedMemory then
    .insufficientMemory (round ((estimatedMemory : ℚ) / 1024 / 1024)).toNat
      (round ((200 * 1024 * 1024 : ℚ) / 1024 / 1024)).toNat
  else .ok

/-- `ImageProcessor.resizeIfNeeded`: returns the canvas dimensions and the
resize flag.  The aspect-ratio arithmetic of the source runs on JS numbers
and is modelled exactly over `ℚ`; both computed dimensions pass through
`Math.floor`. -/
def resizeIfNeeded (originalWidth originalHeight maxDimension : ℕ) :
    ℕ × ℕ × Bool :=
  if originalWidth ≤ maxDimension ∧ originalHeight ≤ maxDimension then
    (originalWidth, originalHeight, false)
  else
    let aspect : ℚ := (originalWidth : ℚ) / (originalHeight : ℚ)
    if originalHeight < originalWidth then
      (Nat.floor (maxDimension : ℚ),
       Nat.floor ((maxDimension : ℚ) / aspect), true)
    else
      (Nat.floor ((maxDimension : ℚ) * aspect),
       Nat.floor (maxDimension : ℚ), true)

/-- `ImageProcessor.debounce`, together with the host timer semantics
(`setTimeout`/`clearTimeout`): given the timestamped list of calls, each call
cancels a pending not-yet-fired timer and schedules the wrapped function
`wait` ms later; the result is the list of (fire time, argument) runs that
actually execute.  A pending timer fires unless a further call arrives
strictly before its deadline. -/
def debounce {α : Type} (wait : ℕ) : List (ℕ × α) → List (ℕ × α)
  | [] => []
  | (t, a) :: rest =>
    match rest with
    | [] => [(t + wait, a)]
    | (t2, _) :: _ =>
      if t2 < t + wait then debounce wait rest
      else (t + wait, a) :: debounce wait rest

/-- Byte indices visited by the loop `for (let i = startIdx; i < endIdx; i += 4)`. -/
def texelIdxs (s e : ℕ) : List ℕ :=
  (List.range ((e - s + 3) / 4)).map (fun k => s + 4 * k)

/-- Run a per-texel processor body over one index range. -/
def runRange (body : Buf → ℕ → Buf) (d : Buf) (s e : ℕ) : Buf :=
  (texelIdxs s e).foldl body d

/-- Chunk start pixels of `processImageDataInChunks`:
`for (let i = 0; i < totalPixels; i += pixelsPerChunk)`. -/
def chunkLoop (i totalPixels pixelsPerChunk : ℕ) : List ℕ :=
  if _h : i < totalPixels ∧ 0 < pixelsPerChunk then
    i :: chunkLoop (i + pixelsPerChunk) totalPixels pixelsPerChunk
  else []
termination_by totalPixels - i
decreasing_by omega

/-- `ImageProcessor.processImageDataInChunks`: the buffer is scanned in
row-group chunks of `chunkSize` rows (`pixelsPerChunk = chunkSize * width`
texels); each chunk runs the processor on byte range
`[i*4, min((i + pixelsPerChunk)*4, data.length))`. -/
def processImageDataInChunks (body : Buf → ℕ → Buf) (W H chunkSize : ℕ)
    (d : Buf) : Buf :=
  let totalPixels := W * H
  let pixelsPerChunk := chunkSize * W
  (chunkLoop 0 totalPixels pixelsPerChunk).foldl
    (fun st i => runRange body st (i * 4)
      (min ((i + pixelsPerChunk) * 4) (W * H * 4))) d

/-- All byte indices covered by the chunk ranges, in order. -/
def chunkByteRanges (totalPixels pixelsPerChunk : ℕ) : List ℕ :=
  (chunkLoop 0 totalPixels pixelsPerChunk).flatMap
    (fun i => List.range' (i * 4)
      (min ((i + pixelsPerChunk) * 4) (totalPixels * 4) - i * 4))

/-- Generic per-texel processor body: reads the four bytes of the texel at
byte index `i`, stores the four transformed bytes.  Each concrete stage body
below is proved extensionally equal to an instance of this form. -/
def texelBody (tf : ℕ → ℕ × ℕ × ℕ × ℕ → ℕ × ℕ × ℕ × ℕ) : Buf → ℕ → Buf :=
  fun d i =>
    let v := tf i (d i, d (i + 1), d (i + 2), d (i + 3))
    upd (upd (upd (upd d i v.1) (i + 1) v.2.1) (i + 2) v.2.2.1) (i + 3) v.2.2.2

/-- Chunk-processor body of `applyColorBleed`: the three channel multiplies
with their explicit `Math.min`/`Math.max` clamps, stored through the clamped
array.  The alpha byte is not written. -/
def colorBleedBody (redMultiplier greenMultiplier blueMultiplier : ℚ) :
    Buf → ℕ → Buf := fun data i =>
  let d1 := upd data i (clampByte (min 255 ((data i : ℚ) * redMultiplier)))
  let d2 := upd d1 (i + 1) (clampByte (max 0 ((d1 (i + 1) : ℚ) * greenMultiplier)))
  upd d2 (i + 2) (clampByte (min 255 ((d2 (i + 2) : ℚ) * blueMultiplier)))

/-- `applyColorBleed` (ImageCanvas.tsx): no-op at intensity 0, otherwise a
chunked scan applying the per-texel channel multipliers
`1 + 0.3t`, `1 - 0.2t`, `1 + 0.4t`. -/
def applyColorBleed (colorBleed W H : ℕ) (data : Buf) : Buf :=
  if colorBleed = 0 then data else
  let intensity : ℚ := (colorBleed : ℚ) / 100
  processImageDataInChunks
    (colorBleedBody (1 + intensity * 0.3) (1 - intensity * 0.2) (1 + intensity * 0.4))
    W H 1024 data

/-- Chunk-processor body of `applyChromaticAberration`: writes the shifted
red and blue bytes into the working copy `nd`, reading every byte from the
pre-stage snapshot `src`; `Math.max(0, x - offset)` is computed over ℤ. -/
def chromaticBody (src : Buf) (W offset len : ℕ) : Buf → ℕ → Buf :=
  fun nd i =>
  let pixelIndex := i / 4
  let x := pixelIndex % W
  let y := pixelIndex / W
  let redX := min (W - 1) (x + offset)
  let redIdx := (y * W + redX) * 4
  let nd1 := if redIdx < len then upd nd i (src redIdx) else nd
  let blueX := (max 0 ((x : ℤ) - (offset : ℤ))).toNat
  let blueIdx := (y * W + blueX) * 4
  if blueIdx < len then upd nd1 (i + 2) (src (blueIdx + 2)) else nd1

/-- `applyChromaticAberration` (ImageCanvas.tsx): no-op at intensity 0,
otherwise `offset = Math.floor((chromatic/100) * 8)` and a chunked scan over
a full copy of the buffer, shifting red right and blue left. -/
def applyChromaticAberration (chromatic W H : ℕ) (data : Buf) : Buf :=
  if chromatic = 0 then data else
  let offset := Nat.floor ((chromatic : ℚ) / 100 * 8)
  processImageDataInChunks (chromaticBody data W offset (W * H * 4)) W H 1024 data

/-- Chunk-processor body of `applyColorShift`: `shift = Math.sin(i * 0.001)
* intensity * 100` with `i` the byte index of the texel; the three channels
are adjusted and explicitly clamped to `[0, 255]`. -/
noncomputable def colorShiftBody (sine : ℚ → ℝ) (intensity : ℚ) :
    Buf → ℕ → Buf := fun data i =>
  let shift : ℝ := sine ((i : ℚ) * 0.001) * (intensity : ℝ) * 100
  let d1 := upd data i (clampByteR (max 0 (min 255 ((data i : ℝ) + shift))))
  let d2 := upd d1 (i + 1)
    (clampByteR (max 0 (min 255 ((d1 (i + 1) : ℝ) - shift * 0.5))))
  upd d2 (i + 2) (clampByteR (max 0 (min 255 ((d2 (i + 2) : ℝ) + shift * 0.8))))

/-- `applyColorShift` (ImageCanvas.tsx): no-op at intensity 0, otherwise a
chunked in-place scan with the sine-driven shift. -/
noncomputable def applyColorShift (sine : ℚ → ℝ) (colorShift W H : ℕ)
    (data : Buf) : Buf :=
  if colorShift = 0 then data else
  let intensity : ℚ := (colorShift : ℚ) / 100
  processImageDataInChunks (colorShiftBody sine intensity) W H 1024 data

/-- Chunk-processor body of `applyNoise`: one `Math.random()` draw per texel
(modelled by `rndB` at the texel index) picks a cache entry; the same noise
value is added to R, G and B with explicit `[0, 255]` clamps. -/
def noiseBody (noiseCache : ℕ → ℚ) (rndB : ℕ → ℚ) : Buf → ℕ → Buf :=
  fun data i =>
  let noise := noiseCache (Int.toNat ⌊rndB (i / 4) * 1000⌋)
  let d1 := upd data i (clampByte (max 0 (min 255 ((data i : ℚ) + noise))))
  let d2 := upd d1 (i + 1)
    (clampByte (max 0 (min 255 ((d1 (i + 1) : ℚ) + noise))))
  upd d2 (i + 2) (clampByte (max 0 (min 255 ((d2 (i + 2) : ℚ) + noise))))

/-- `applyNoise` (ImageCanvas.tsx): no-op at intensity 0, otherwise
pre-generates a cache of `(Math.random() - 0.5) * strength` values (oracle
`rndA`; the source fills 1000 slots and only indices below 1000 are ever
read for oracles ranged in `[0, 1)`) and runs the chunked per-texel body. -/
def applyNoise (rndA rndB : ℕ → ℚ) (noise W H : ℕ) (data : Buf) : Buf :=
  if noise = 0 then data else
  let intensity : ℚ := (noise : ℚ) / 100
  let noiseStrength := intensity * 50
  let noiseCache : ℕ → ℚ := fun k => (rndA k - 0.5) * noiseStrength
  processImageDataInChunks (noiseBody noiseCache rndB) W H 1024 data

/-- Chunk-processor body of `applyDisplacement`: sine-driven source
coordinates, clamped to the canvas, all four channels copied from the
pre-stage snapshot `src` into `nd`. -/
noncomputable def displacementBody (sine : ℚ → ℝ) (intensity : ℚ)
    (maxDisplacement : ℕ) (src : Buf) (W H len : ℕ) : Buf → ℕ → Buf :=
  fun nd i =>
  let pixelIndex := i / 4
  let x := pixelIndex % W
  let y := pixelIndex / W
  let noise : ℝ := sine ((x : ℚ) * 0.1 + (y : ℚ) * 0.1) * (intensity : ℝ)
  let displaceX : ℤ := ⌊noise * (maxDisplacement : ℝ)⌋
  let displaceY : ℤ :=
    ⌊sine ((x : ℚ) * 0.05) * (intensity : ℝ) * (maxDisplacement : ℝ) * 0.5⌋
  let sourceX := (max 0 (min ((W : ℤ) - 1) ((x : ℤ) + displaceX))).toNat
  let sourceY := (max 0 (min ((H : ℤ) - 1) ((y : ℤ) + displaceY))).toNat
  let sourceIdx := (sourceY * W + sourceX) * 4
  if sourceIdx < len then
    upd (upd (upd (upd nd i (src sourceIdx)) (i + 1) (src (sourceIdx + 1)))
      (i + 2) (src (sourceIdx + 2))) (i + 3) (src (sourceIdx + 3))
  else nd

/-- `applyDisplacement` (ImageCanvas.tsx): no-op at intensity 0, otherwise
`maxDisplacement = Math.floor(intensity * 20)` and a chunked scan writing
into a fresh zero-initialised buffer while reading the snapshot. -/
noncomputable def applyDisplacement (sine : ℚ → ℝ) (displacement W H : ℕ)
    (data : Buf) : Buf :=
  if displacement = 0 then data else
  let intensity : ℚ := (displacement : ℚ) / 100
  let maxDisplacement := Nat.floor (intensity * 20)
  processImageDataInChunks
    (displacementBody sine intensity maxDisplacement data W H (W * H * 4))
    W H 1024 (fun _ => 0)

/-- Chunk-processor body of `applyAnaglyph3D`: grayscale left/right eye
samples blended with the original red/blue channels, green attenuated,
alpha copied; reads come from the snapshot `src`, writes go to the
zero-filled `nd`. -/
def anaglyphBody (intensity : ℚ) (offset : ℕ) (src : Buf) (W len : ℕ) :
    Buf → ℕ → Buf := fun nd i =>
  let pixelIndex := i / 4
  let x := pixelIndex % W
  let y := pixelIndex / W
  let redX := (max 0 ((x : ℤ) - (offset : ℤ))).toNat
  let redIdx := (y * W + redX) * 4
  let nd1 :=
    if redIdx < len then
      let redIntensity : ℚ :=
        ((src redIdx : ℚ) + (src (redIdx + 1) : ℚ) + (src (redIdx + 2) : ℚ)) / 3
      upd nd i (clampByte (min 255
        (redIntensity * intensity + (src i : ℚ) * (1 - intensity))))
    else nd
  let blueX := min (W - 1) (x + offset)
  let blueIdx := (y * W + blueX) * 4
  let nd2 :=
    if blueIdx < len then
      let blueIntensity : ℚ :=
        ((src blueIdx : ℚ) + (src (blueIdx + 1) : ℚ) + (src (blueIdx + 2) : ℚ)) / 3
      upd nd1 (i + 2) (clampByte (min 255
        (blueIntensity * intensity + (src (i + 2) : ℚ) * (1 - intensity))))
    else nd1
  let nd3 := upd nd2 (i + 1) (clampByte ((src (i + 1) : ℚ) * (1 - intensity * 0.8)))
  upd nd3 (i + 3) (src (i + 3))

/-- `applyAnaglyph3D` (ImageCanvas.tsx): no-op at intensity 0, otherwise a
chunked scan into a zero-filled buffer using the depth offset
`anaglyphOffset`. -/
def applyAnaglyph3D (anaglyph anaglyphOffset W H : ℕ) (data : Buf) : Buf :=
  if anaglyph = 0 then data else
  let intensity : ℚ := (anaglyph : ℚ) / 100
  processImageDataInChunks
    (anaglyphBody intensity anaglyphOffset data W (W * H * 4))
    W H 1024 (fun _ => 0)

/-- The `drawLines` callback of `drawScanlines`: composites every
`lineSpacing`-th row with a black 1px line of alpha `0.3 * intensity` in
`multiply` mode.  With an opaque black source the multiply composite scales
each color channel by `1 - a` and composites the alpha channel source-over;
the stroke rasterization is idealised so that the line drawn at row `y`
darkens exactly row `y`.  The intensity and spacing the callback closed
over at scheduling time are recomputed from the `scanlines` value. -/
def scanlinesStroke (scanlines W H : ℕ) (d : Buf) : Buf :=
  let intensity : ℚ := (scanlines : ℚ) / 100
  let lineSpacing := max 1 (Nat.floor (4 / intensity))
  let a : ℚ := 0.3 * intensity
  fun j =>
    if j < W * H * 4 then
      let y := j / 4 / W
      if y % lineSpacing = 0 then
        if j % 4 = 3 then clampByte (a * 255 + (d j : ℚ) * (1 - a))
        else clampByte ((d j : ℚ) * (1 - a))
      else d j
    else d j

/-- `drawScanlines` (ImageCanvas.tsx): returns immediately at intensity 0;
otherwise it does not paint at call time but schedules the `drawLines`
stroke with `requestAnimationFrame`.  The result is the canvas as the call
leaves it (unchanged) paired with the pending deferred stroke, which the
host runs only after the current synchronous work has completed. -/
def drawScanlines (scanlines W H : ℕ) (d : Buf) : Buf × Option (Buf → Buf) :=
  if scanlines = 0 then (d, none)
  else (d, some (scanlinesStroke scanlines W H))

/-- Alpha profile of the radial gradient of `drawCRTBezel`: color stops
`(0, 0)`, `(0.7, 0.1)`, `(1, 0.8)`, linearly interpolated, clamped past the
last stop. -/
noncomputable def bezelAlpha (s : ℝ) : ℝ :=
  if s ≤ 0.7 then s / 0.7 * 0.1
  else if s ≤ 1 then 0.1 + (s - 0.7) / 0.3 * 0.7
  else 0.8

/-- `drawCRTBezel` (ImageCanvas.tsx): only when the flag is set, composites
the radial vignette (center `(W/2, H/2)`, radius `max(W,H)/2`) and then the
`strokeRect(4, 4, W-8, H-8)` frame of width 8 at alpha 0.5; source-over
compositing of a black source of alpha `a` scales each color channel by
`1 - a` and blends the alpha channel.  The vignette is sampled at integer
pixel coordinates and the frame stroke is idealised to the 8px band along
each edge. -/
noncomputable def drawCRTBezel (crtBezel : Bool) (W H : ℕ) (d : Buf) : Buf :=
  if crtBezel then
    let radius : ℝ := (max W H : ℕ) / 2
    let vign : Buf := fun j =>
      if j < W * H * 4 then
        let pixelIndex := j / 4
        let x := pixelIndex % W
        let y := pixelIndex / W
        let dist := Real.sqrt (((x : ℝ) - W / 2) ^ 2 + ((y : ℝ) - H / 2) ^ 2)
        let a := bezelAlpha (dist / radius)
        if j % 4 = 3 then clampByteR (a * 255 + (d j : ℝ) * (1 - a))
        else clampByteR ((d j : ℝ) * (1 - a))
      else d j
    fun j =>
      if j < W * H * 4 then
        let pixelIndex := j / 4
        let x := pixelIndex % W
        let y := pixelIndex / W
        if x < 8 ∨ y < 8 ∨ W ≤ x + 8 ∨ H ≤ y + 8 then
          if j % 4 = 3 then clampByteR (0.5 * 255 + (vign j : ℝ) * (1 - 0.5))
          else clampByteR ((vign j : ℝ) * (1 - 0.5))
        else vign j
      else d j
  else d

/-- One `fillRect(x, y, pixelSize, pixelSize)` with an opaque
`rgb(r, g, b)` fill style: every canvas pixel inside the rectangle gets the
fill color with alpha 255; the rectangle is clipped to the canvas. -/
def fillRect (W H x y pixelSize r g b : ℕ) (st : Buf) : Buf :=
  fun j =>
    if j < W * H * 4 then
      let pixelIndex := j / 4
      let px := pixelIndex % W
      let py := pixelIndex / W
      if x ≤ px ∧ px < x + pixelSize ∧ y ≤ py ∧ py < y + pixelSize then
        match j % 4 with
        | 0 => r
        | 1 => g
        | 2 => b
        | _ => 255
      else st j
    else st j

/-- `applyPixelation` (ImageCanvas.tsx): no-op at intensity 0, otherwise
`pixelSize = Math.floor((pixelation/100) * 12) + 1`, and for every
block-aligned corner (rows outer, columns inner) the current corner texel
is read with `getImageData(x, y, 1, 1)` and flood-filled over the block. -/
def applyPixelation (pixelation W H : ℕ) (d : Buf) : Buf :=
  if pixelation = 0 then d else
  let pixelSize := Nat.floor ((pixelation : ℚ) / 100 * 12) + 1
  ((List.range ((H + pixelSize - 1) / pixelSize)).flatMap (fun rowB =>
      (List.range ((W + pixelSize - 1) / pixelSize)).map (fun colB =>
        (colB * pixelSize, rowB * pixelSize)))).foldl
    (fun st xy =>
      let cornerIdx := (xy.2 * W + xy.1) * 4
      fillRect W H xy.1 xy.2 pixelSize
        (st cornerIdx) (st (cornerIdx + 1)) (st (cornerIdx + 2)) st) d

/-- One datamosh block move: `getImageData(sx, sy, bs, bs)` followed by
`putImageData(block, dx, dy)`.  The block is read whole from the pre-move
state (transparent black outside the canvas) and written clipped to the
canvas. -/
def blockCopy (W H bs : ℕ) (sx sy dx dy : ℤ) (st : Buf) : Buf :=
  fun j =>
    if j < W * H * 4 then
      let pixelIndex := j / 4
      let c := j % 4
      let x : ℤ := (pixelIndex % W : ℕ)
      let y : ℤ := (pixelIndex / W : ℕ)
      if dx ≤ x ∧ x < dx + bs ∧ dy ≤ y ∧ y < dy + bs then
        let srcX := sx + (x - dx)
        let srcY := sy + (y - dy)
        if 0 ≤ srcX ∧ srcX < (W : ℤ) ∧ 0 ≤ srcY ∧ srcY < (H : ℤ) then
          st ((srcY.toNat * W + srcX.toNat) * 4 + c)
        else 0
      else st j
    else st j

/-- `applyDatamosh` (ImageCanvas.tsx): no-op at intensity 0, otherwise
`blockSize = Math.floor(intensity * 20) + 5` and at most
`min(100, Math.floor(W*H/(blockSize^2) * intensity * 0.3))` random block
moves; operation `op` draws its destination and source corners from the
oracle at `4*op .. 4*op+3` in source order
(`x`, `y`, `sourceX`, `sourceY`), each as
`Math.floor(Math.random() * (dim - blockSize))` over ℤ. -/
def applyDatamosh (rnd : ℕ → ℚ) (datamosh W H : ℕ) (d : Buf) : Buf :=
  if datamosh = 0 then d else
  let intensity : ℚ := (datamosh : ℚ) / 100
  let blockSize := Nat.floor (intensity * 20) + 5
  let maxOperations := min 100
    (Int.toNat ⌊(W * H : ℚ) / ((blockSize : ℚ) * blockSize) * intensity * 0.3⌋)
  (List.range maxOperations).foldl
    (fun st op =>
      let x := ⌊rnd (4 * op) * ((W : ℚ) - blockSize)⌋
      let y := ⌊rnd (4 * op + 1) * ((H : ℚ) - blockSize)⌋
      let sourceX := ⌊rnd (4 * op + 2) * ((W : ℚ) - blockSize)⌋
      let sourceY := ⌊rnd (4 * op + 3) * ((H : ℚ) - blockSize)⌋
      blockCopy W H blockSize sourceX sourceY x y st) d

/-- One extracted pixel of the pixel-sort stage, with its stored
brightness key, mirroring the record pushed onto `rowPixels`. -/
structure RowPixel where
  r : ℕ
  g : ℕ
  b : ℕ
  a : ℕ
  brightness : ℚ
deriving DecidableEq

/-- Extraction phase of one pixel-sort band: texels of rows
`y ≤ row < endY` in row-major order, each with brightness
`(R + G + B) / 3`. -/
def bandPixels (W y endY : ℕ) (st : Buf) : List RowPixel :=
  (List.range (endY - y)).flatMap (fun row =>
    (List.range W).map (fun x =>
      let idx := ((y + row) * W + x) * 4
      { r := st idx, g := st (idx + 1), b := st (idx + 2), a := st (idx + 3),
        brightness := ((st idx : ℚ) + (st (idx + 1) : ℚ) + (st (idx + 2) : ℚ)) / 3 }))

/-- Write-back phase of one pixel-sort band: pixel `index` of the sorted
list goes to column `index % W` of row `y + index / W`, guarded by
`targetY < endY` as in the source. -/
def writeBandAux (W y endY : ℕ) : ℕ → List RowPixel → Buf → Buf
  | _, [], st => st
  | index, px :: rest, st =>
    let targetX := index % W
    let targetY := y + index / W
    let st2 :=
      if targetY < endY then
        let idx := (targetY * W + targetX) * 4
        upd (upd (upd (upd st idx px.r) (idx + 1) px.g) (idx + 2) px.b)
          (idx + 3) px.a
      else st
    writeBandAux W y endY (index + 1) rest st2

/-- Comparator of the pixel-sort stage: ascending stored brightness
(`(a, b) => a.brightness - b.brightness`). -/
def byBrightness (p q : RowPixel) : Prop := p.brightness ≤ q.brightness

instance : DecidableRel byBrightness := fun p q =>
  inferInstanceAs (Decidable (p.brightness ≤ q.brightness))

/-- One full pixel-sort band operation: extract the band texels in
row-major order, stable-sort them ascending by brightness (JS
`Array.prototype.sort` is stable; any stable sort agrees with insertion
sort on a total preorder), and write them back in row-major order. -/
def sortBand (W y endY : ℕ) (st : Buf) : Buf :=
  writeBandAux W y endY 0 (List.insertionSort byBrightness (bandPixels W y endY st)) st

/-- `applyPixelSort` (ImageCanvas.tsx): no-op at intensity 0, otherwise
`bandHeight = max(1, Math.floor(20 * (1 - t)))`, at most
`min(50, Math.floor(H / bandHeight))` bands, and band `bandIndex`
(starting at row `bandIndex * bandHeight`, ending at
`min(start + bandHeight, H)`) is sorted exactly when its row start is in
range and its `Math.random()` draw does not exceed the intensity. -/
def applyPixelSort (rnd : ℕ → ℚ) (pixelSort W H : ℕ) (d : Buf) : Buf :=
  if pixelSort = 0 then d else
  let intensity : ℚ := (pixelSort : ℚ) / 100
  let bandHeight := max 1 (Nat.floor (20 * (1 - intensity)))
  let maxBands := min 50 (H / bandHeight)
  (List.range maxBands).foldl
    (fun st bandIndex =>
      let y := bandIndex * bandHeight
      if y < H ∧ rnd bandIndex ≤ intensity then
        sortBand W y (min (y + bandHeight) H) st
      else st) d

/-- `applyEffectsSequentially` (ImageCanvas.tsx): the eleven stages are
invoked in the fixed source order, each pixel-data stage reading the output
of the previous one.  The `drawScanlines` call only schedules its stroke
with `requestAnimationFrame` and leaves the canvas untouched, while
`drawCRTBezel` on the next line paints synchronously; the deferred stroke
runs once the synchronous run has completed, compositing onto the bezel
output.  The result is the buffer as eventually observed. -/
noncomputable def applyEffectsSequentially (sine : ℚ → ℝ)
    (datamoshRnd pixelSortRnd noiseCacheRnd noisePickRnd : ℕ → ℚ)
    (s : EffectSettings) (W H : ℕ) (d : Buf) : Buf :=
  let b1 := applyColorBleed s.colorBleed W H d
  let b2 := applyChromaticAberration s.chromatic W H b1
  let b3 := applyDatamosh datamoshRnd s.datamosh W H b2
  let b4 := applyDisplacement sine s.displacement W H b3
  let b5 := applyPixelSort pixelSortRnd s.pixelSort W H b4
  let b6 := applyColorShift sine s.colorShift W H b5
  let b7 := applyPixelation s.pixelation W H b6
  let b8 := applyNoise noiseCacheRnd noisePickRnd s.noise W H b7
  let b9 := applyAnaglyph3D s.anaglyph s.anaglyphOffset W H b8
  let scan := drawScanlines s.scanlines W H b9
  let b10 := drawCRTBezel s.crtBezel W H scan.1
  match scan.2 with
  | none => b10
  | some stroke => stroke b10

/-- Channel selector: component `k % 4` of a texel tuple. -/
def texelGet (k : ℕ) (x : ℕ × ℕ × ℕ × ℕ) : ℕ :=
  match k with
  | 0 => x.1
  | 1 => x.2.1
  | 2 => x.2.2.1
  | _ => x.2.2.2

/-- Texel transform of the color-bleed body. -/
def colorBleedTf (redMultiplier greenMultiplier blueMultiplier : ℚ) :
    ℕ → ℕ × ℕ × ℕ × ℕ → ℕ × ℕ × ℕ × ℕ := fun _ x =>
  (clampByte (min 255 ((x.1 : ℚ) * redMultiplier)),
   clampByte (max 0 ((x.2.1 : ℚ) * greenMultiplier)),
   clampByte (min 255 ((x.2.2.1 : ℚ) * blueMultiplier)),
   x.2.2.2)

/-- Texel transform of the chromatic-aberration body. -/
def chromaticTf (src : Buf) (W offset len : ℕ) :
    ℕ → ℕ × ℕ × ℕ × ℕ → ℕ × ℕ × ℕ × ℕ := fun i x =>
  let pixelIndex := i / 4
  let px := pixelIndex % W
  let py := pixelIndex / W
  let redIdx := (py * W + min (W - 1) (px + offset)) * 4
  let blueIdx := (py * W + (max 0 ((px : ℤ) - (offset : ℤ))).toNat) * 4
  (if redIdx < len then src redIdx else x.1,
   x.2.1,
   if blueIdx < len then src (blueIdx + 2) else x.2.2.1,
   x.2.2.2)

/-- Texel transform of the color-shift body. -/
noncomputable def colorShiftTf (sine : ℚ → ℝ) (intensity : ℚ) :
    ℕ → ℕ × ℕ × ℕ × ℕ → ℕ × ℕ × ℕ × ℕ := fun i x =>
  let shift : ℝ := sine ((i : ℚ) * 0.001) * (intensity : ℝ) * 100
  (clampByteR (max 0 (min 255 ((x.1 : ℝ) + shift))),
   clampByteR (max 0 (min 255 ((x.2.1 : ℝ) - shift * 0.5))),
   clampByteR (max 0 (min 255 ((x.2.2.1 : ℝ) + shift * 0.8))),
   x.2.2.2)

/-- Spec formula for the color-bleed stage (section 4.3 of the spec):
`R *= 1+0.3t` clamped at 255, `G *= 1-0.2t` clamped at 0, `B *= 1+0.4t`
clamped at 255, alpha untouched, the result stored as a byte. -/
def colorBleedSpecTexel (t : ℚ) (x : ℕ × ℕ × ℕ × ℕ) : ℕ × ℕ × ℕ × ℕ :=
  (clampByte (min 255 ((x.1 : ℚ) * (1 + 0.3 * t))),
   clampByte (max 0 ((x.2.1 : ℚ) * (1 - 0.2 * t))),
   clampByte (min 255 ((x.2.2.1 : ℚ) * (1 + 0.4 * t))),
   x.2.2.2)

/-- Spec formula for the chromatic-aberration stage: new R is the pre-stage
R at `(min(W-1, x+offset), y)`, new B the pre-stage B at
`(max(0, x-offset), y)` (natural subtraction realises the `max(0, -)`),
G and alpha unchanged. -/
def chromaticSpecTexel (W offset : ℕ) (d : Buf) (p : ℕ) : ℕ × ℕ × ℕ × ℕ :=
  let x := p % W
  let y := p / W
  (d ((y * W + min (W - 1) (x + offset)) * 4),
   d (4 * p + 1),
   d ((y * W + (x - offset)) * 4 + 2),
   d (4 * p + 3))

/-- Corrected spec formula for the color-shift stage: the sine argument uses
the byte offset `4*i` of texel `i`, i.e. `shift = sin(0.001*(4i)) * t * 100`;
`R += shift`, `G -= shift*0.5`, `B += shift*0.8`, clamped to `[0,255]` and
stored as bytes, alpha unchanged. -/
noncomputable def colorShiftSpecTexel (t : ℚ) (i : ℕ) (x : ℕ × ℕ × ℕ × ℕ) :
    ℕ × ℕ × ℕ × ℕ :=
  let shift : ℝ := Real.sin (0.001 * ((4 * i : ℕ) : ℝ)) * (t : ℝ) * 100
  (clampByteR (max 0 (min 255 ((x.1 : ℝ) + shift))),
   clampByteR (max 0 (min 255 ((x.2.1 : ℝ) - shift * 0.5))),
   clampByteR (max 0 (min 255 ((x.2.2.1 : ℝ) + shift * 0.8))),
   x.2.2.2)

/-- Claimed formula for the color-shift stage as stated (sine of the linear
texel index `i` itself): `shift = sin(0.001*i) * t * 100`. -/
noncomputable def colorShiftClaimTexel (t : ℚ) (i : ℕ) (x : ℕ × ℕ × ℕ × ℕ) :
    ℕ × ℕ × ℕ × ℕ :=
  let shift : ℝ := Real.sin (0.001 * (i : ℝ)) * (t : ℝ) * 100
  (clampByteR (max 0 (min 255 ((x.1 : ℝ) + shift))),
   clampByteR (max 0 (min 255 ((x.2.1 : ℝ) - shift * 0.5))),
   clampByteR (max 0 (min 255 ((x.2.2.1 : ℝ) + shift * 0.8))),
   x.2.2.2)

/-- Math.sin as the sine parameter. -/
noncomputable def sinQ : ℚ → ℝ := fun q => Real.sin (q : ℝ)

/-- An all-zero raster buffer. -/
def zeroBuf : Buf := fun _ => 0

/-- A 1x1 gray test texel: R = G = B = 100, A = 255. -/
def grayBuf : Buf := fun j => [100, 100, 100, 255].getD j 0

/-- A 4x1 test strip of distinct colors for the chromatic-aberration
scenario. -/
def stripBuf : Buf := fun j =>
  [10, 11, 12, 255, 20, 21, 22, 255, 30, 31, 32, 255, 40, 41, 42, 255].getD j 0

/-- A 1x2 buffer whose two texels are in ascending brightness order. -/
def bandBuf : Buf := fun j => [10, 10, 10, 255, 20, 20, 20, 255].getD j 0

/-- Settings with all ten intensity parameters 0 and the bezel flag off. -/
def disabledSettings : EffectSettings :=
  { scanlines := 0, chromatic := 0, colorBleed := 0, noise := 0,
    pixelation := 0, crtBezel := false, datamosh := 0, pixelSort := 0,
    displacement := 0, colorShift := 0, anaglyph := 0, anaglyphOffset := 5 }

/-- A constant-zero random oracle. -/
def zeroOracle : ℕ → ℚ := fun _ => 0

/-- Overlay-only settings: scanlines at 100, bezel on, every pixel-data
parameter 0. -/
def overlaySettings : EffectSettings :=
  { scanlines := 100, chromatic := 0, colorBleed := 0, noise := 0,
    pixelation := 0, crtBezel := true, datamosh := 0, pixelSort := 0,
    displacement := 0, colorShift := 0, anaglyph := 0, anaglyphOffset := 5 }

/-- A 1x1 texel with red 23, chosen so that intermediate byte rounding
distinguishes the two overlay orders. -/
def redBuf : Buf := fun j => [23, 0, 0, 255].getD j 0

/-- The texel of a buffer at row `r`, column `c`, as a `RowPixel` record
with its brightness key. -/
def pixelAt (st : Buf) (W r c : ℕ) : RowPixel :=
  let idx := (r * W + c) * 4
  { r := st idx, g := st (idx + 1), b := st (idx + 2), a := st (idx + 3),
    brightness := ((st idx : ℚ) + (st (idx + 1) : ℚ) + (st (idx + 2) : ℚ)) / 3 }

/-- Floor of a rational quotient of naturals is natural division. -/
theorem floor_nat_div (a b : ℕ) : Nat.floor ((a : ℚ) / (b : ℚ)) = a / b := by
  rw [Nat.floor_div_nat, Nat.floor_natCast]

/-- C2, counterexample to the claim as stated: the code accepts 8000x6400
although its RGBA estimate 204800000 exceeds the claimed 200000000-byte
budget, because the implemented budget is 200*1024*1024 bytes. -/
theorem validateImage_budget_counterexample :
    validateImage 8000 6400 = .ok ∧ 200000000 < 8000 * 6400 * 4 := by
  exact ⟨by decide, by decide⟩

/-- C2 (amended): `validate` returns Ok iff both dimensions are at most
8000 and `width*height*4 <= 200*1024*1024 = 209715200`; the dimension rule
is checked first and rejects with the dimensions-too-large reason, and
otherwise an estimate above the budget rejects with the
insufficient-memory reason reporting `Math.round` of the megabyte
estimate (and a 200 MB maximum). -/
theorem validateImage_characterization (width height : ℕ) :
    (validateImage width height = .ok ↔
      width ≤ 8000 ∧ height ≤ 8000 ∧ width * height * 4 ≤ 209715200) ∧
    ((8000 < width ∨ 8000 < height) →
      validateImage width height = .dimensionsTooLarge 8000) ∧
    (width ≤ 8000 → height ≤ 8000 → 209715200 < width * height * 4 →
      validateImage width height =
        .insufficientMemory
          (round (((width * height * 4 : ℕ) : ℚ) / 1024 / 1024)).toNat 200) := by
  have hmax : (round ((200 * 1024 * 1024 : ℚ) / 1024 / 1024)).toNat = 200 := by
    norm_num [round_eq]
    decide
  by_cases h1 : 8000 < width ∨ 8000 < height
  · have hv : validateImage width height = .dimensionsTooLarge 8000 := by
      simp only [validateImage]
      rw [if_pos h1]
    refine ⟨⟨fun hc => ?_, fun hc => by omega⟩, fun _ => hv, fun _ _ _ => by omega⟩
    rw [hv] at hc
    exact absurd hc (by simp)
  · by_cases h2 : 209715200 < width * height * 4
    · have hv : validateImage width height =
          .insufficientMemory
            (round (((width * height * 4 : ℕ) : ℚ) / 1024 / 1024)).toNat 200 := by
        simp only [validateImage]
        rw [if_neg h1,
          if_pos (show 200 * 1024 * 1024 < width * height * 4 by omega), hmax]
      refine ⟨⟨fun hc => ?_, fun hc => by omega⟩, fun hc => absurd hc h1,
        fun _ _ _ => hv⟩
      rw [hv] at hc
      exact absurd hc (by simp)
    · have hv : validateImage width height = .ok := by
        simp only [validateImage]
        rw [if_neg h1,
          if_neg (show ¬(200 * 1024 * 1024 < width * height * 4) by omega)]
      exact ⟨⟨fun _ => by omega, fun _ => hv⟩, fun hc => absurd hc h1,
        fun _ _ hm => by omega⟩

/-- C2 witness: the 7999x7999 request passes the dimension rule but its
255936004-byte estimate exceeds the budget, so it is rejected for memory
with a rounded estimate of 244 MB. -/
theorem validateImage_characterization_witness :
    (7999 ≤ 8000 ∧ 7999 ≤ 8000 ∧ 209715200 < 7999 * 7999 * 4) ∧
    validateImage 7999 7999 = .insufficientMemory 244 200 := by
  refine ⟨by decide, ?_⟩
  have h := (validateImage_characterization 7999 7999).2.2
    (by decide) (by decide) (by decide)
  rw [h]
  norm_num [round_eq]
  decide

/-- C3: when both source dimensions fit under `maxDimension` the source size
is returned unresized; otherwise the larger dimension becomes exactly
`maxDimension` and the other is scaled by the same aspect ratio and
floored (equal over-limit dimensions both map to `maxDimension`). -/
theorem resizeIfNeeded_spec (w h M : ℕ) (hw : 0 < w) (hh : 0 < h) :
    (w ≤ M ∧ h ≤ M → resizeIfNeeded w h M = (w, h, false)) ∧
    (¬(w ≤ M ∧ h ≤ M) →
      if h < w then resizeIfNeeded w h M = (M, M * h / w, true)
      else resizeIfNeeded w h M = (M * w / h, M, true)) := by
  have hwq : ((w : ℚ)) ≠ 0 := by positivity
  have hhq : ((h : ℚ)) ≠ 0 := by positivity
  constructor
  · intro hfit
    unfold resizeIfNeeded
    rw [if_pos hfit]
  · intro hbig
    unfold resizeIfNeeded
    rw [if_neg hbig]
    split_ifs with hlt
    · have harg : (M : ℚ) / ((w : ℚ) / (h : ℚ)) = ((M * h : ℕ) : ℚ) / (w : ℚ) := by
        rw [div_div_eq_mul_div]
        push_cast
        ring
      simp only [harg, floor_nat_div, Nat.floor_natCast]
    · have harg : (M : ℚ) * ((w : ℚ) / (h : ℚ)) = ((M * w : ℕ) : ℚ) / (h : ℚ) := by
        rw [mul_div_assoc']
        push_cast
        ring
      simp only [harg, floor_nat_div, Nat.floor_natCast]

/-- C3 witness: a 10000x5000 source with cap 4096 resizes to 4096x2048. -/
theorem resizeIfNeeded_spec_witness :
    (0 < 10000 ∧ 0 < 5000 ∧ ¬(10000 ≤ 4096 ∧ 5000 ≤ 4096)) ∧
    resizeIfNeeded 10000 5000 4096 = (4096, 2048, true) := by
  refine ⟨by decide, ?_⟩
  have h := (resizeIfNeeded_spec 10000 5000 4096 (by decide) (by decide)).2
    (by decide)
  rw [if_pos (by decide : 5000 < 10000)] at h
  exact h.trans (by decide)

/-- C9: a settings change arriving strictly within the 150 ms quiet period
cancels the previously scheduled run, and three changes all within 150 ms
of the first produce exactly one run, firing 150 ms after the last change
with the last settings value. -/
theorem debounce_three_changes {α : Type} (t1 t2 t3 : ℕ) (a1 a2 a3 : α)
    (h12 : t1 ≤ t2) (h23 : t2 ≤ t3) (hspan : t3 < t1 + 150) :
    (∀ (t u : ℕ) (a b : α) (rest : List (ℕ × α)), u < t + 150 →
      debounce 150 ((t, a) :: (u, b) :: rest) = debounce 150 ((u, b) :: rest)) ∧
    debounce 150 [(t1, a1), (t2, a2), (t3, a3)] = [(t3 + 150, a3)] := by
  have cancel : ∀ (t u : ℕ) (a b : α) (rest : List (ℕ × α)), u < t + 150 →
      debounce 150 ((t, a) :: (u, b) :: rest) = debounce 150 ((u, b) :: rest) := by
    intro t u a b rest hlt
    simp only [debounce]
    rw [if_pos hlt]
  refine ⟨cancel, ?_⟩
  rw [cancel t1 t2 a1 a2 _ (by omega), cancel t2 t3 a2 a3 _ (by omega)]
  simp [debounce]

/-- C9 witness: changes at 10, 20 and 30 ms produce the single run
(180, 3) carrying the last value. -/
theorem debounce_three_changes_witness :
    (10 ≤ 20 ∧ 20 ≤ 30 ∧ 30 < 10 + 150) ∧
    debounce 150 [(10, 1), (20, 2), (30, 3)] = [(180, 3)] :=
  ⟨by decide,
   (debounce_three_changes 10 20 30 1 2 3 (by decide) (by decide) (by decide)).2⟩

/-- C7 (amended): one pipeline run invokes the eleven stages in exactly the
fixed source order (color bleed, chromatic aberration, datamosh,
displacement, pixel sort, color shift, pixelation, noise, anaglyph,
scanlines, CRT bezel), each pixel-data stage reading the output of the
previous one, and both overlays composite after every pixel-data stage; but
because `drawScanlines` defers its stroke through `requestAnimationFrame`,
the CRT bezel overlay is composited synchronously first and the scanlines
stroke is composited onto the bezel output once the synchronous run has
completed (and not at all when scanlines is 0). -/
theorem applyEffectsSequentially_fixed_order (sine : ℚ → ℝ)
    (r1 r2 r3 r4 : ℕ → ℚ) (s : EffectSettings) (W H : ℕ) (d : Buf) :
    applyEffectsSequentially sine r1 r2 r3 r4 s W H d =
      (if s.scanlines = 0 then
        drawCRTBezel s.crtBezel W H
          (applyAnaglyph3D s.anaglyph s.anaglyphOffset W H
            (applyNoise r3 r4 s.noise W H
              (applyPixelation s.pixelation W H
                (applyColorShift sine s.colorShift W H
                  (applyPixelSort r2 s.pixelSort W H
                    (applyDisplacement sine s.displacement W H
                      (applyDatamosh r1 s.datamosh W H
                        (applyChromaticAberration s.chromatic W H
                          (applyColorBleed s.colorBleed W H d)))))))))
      else
        scanlinesStroke s.scanlines W H
          (drawCRTBezel s.crtBezel W H
            (applyAnaglyph3D s.anaglyph s.anaglyphOffset W H
              (applyNoise r3 r4 s.noise W H
                (applyPixelation s.pixelation W H
                  (applyColorShift sine s.colorShift W H
                    (applyPixelSort r2 s.pixelSort W H
                      (applyDisplacement sine s.displacement W H
                        (applyDatamosh r1 s.datamosh W H
                          (applyChromaticAberration s.chromatic W H
                            (applyColorBleed s.colorBleed W H d))))))))))) := by
  by_cases h : s.scanlines = 0
  · simp [applyEffectsSequentially, drawScanlines, h]
  · simp [applyEffectsSequentially, drawScanlines, h]

/-- Running over an empty index range leaves the buffer untouched. -/
theorem runRange_refl (body : Buf → ℕ → Buf) (d : Buf) (e : ℕ) :
    runRange body d e e = d := by
  unfold runRange texelIdxs
  rw [show (e - e + 3) / 4 = 0 by omega]
  rfl

/-- Splitting an index range at a texel boundary splits the visited
indices. -/
theorem texelIdxs_append (s m e : ℕ) (hsm : s ≤ m) (hme : m ≤ e)
    (hdvd : 4 ∣ m - s) : texelIdxs s e = texelIdxs s m ++ texelIdxs m e := by
  obtain ⟨n1, hn1⟩ := hdvd
  have hcount : (e - s + 3) / 4 = n1 + (e - m + 3) / 4 := by omega
  unfold texelIdxs
  rw [hcount, List.range_add, List.map_append, List.map_map]
  congr 1
  · rw [show (m - s + 3) / 4 = n1 by omega]
  · refine List.map_congr_left ?_
    intro k _
    simp only [Function.comp_apply]
    omega

/-- Consecutive runs over adjacent texel-aligned ranges compose. -/
theorem runRange_trans (body : Buf → ℕ → Buf) (d : Buf) (s m e : ℕ)
    (hsm : s ≤ m) (hme : m ≤ e) (hdvd : 4 ∣ m - s) :
    runRange body (runRange body d s m) m e = runRange body d s e := by
  unfold runRange
  rw [texelIdxs_append s m e hsm hme hdvd, List.foldl_append]

/-- One-step unfolding of the chunk loop. -/
theorem chunkLoop_eq (i totalPixels pixelsPerChunk : ℕ) :
    chunkLoop i totalPixels pixelsPerChunk =
      if i < totalPixels ∧ 0 < pixelsPerChunk then
        i :: chunkLoop (i + pixelsPerChunk) totalPixels pixelsPerChunk
      else [] := by
  rw [chunkLoop]
  simp

/-- Folding the per-chunk runs from chunk start `i` equals one run over the
remaining byte range. -/
theorem chunkLoop_foldl (body : Buf → ℕ → Buf) (T ppc : ℕ) (hp : 0 < ppc) :
    ∀ (n i : ℕ) (d : Buf), T ≤ i + n →
      (chunkLoop i T ppc).foldl
        (fun st a => runRange body st (a * 4) (min ((a + ppc) * 4) (T * 4))) d
      = runRange body d (min (i * 4) (T * 4)) (T * 4) := by
  intro n
  induction n with
  | zero =>
    intro i d hTi
    rw [chunkLoop_eq, if_neg (by omega), show min (i * 4) (T * 4) = T * 4 by omega]
    exact (runRange_refl body d (T * 4)).symm
  | succ n ih =>
    intro i d hTi
    by_cases hi : i < T
    · rw [chunkLoop_eq, if_pos ⟨hi, hp⟩]
      simp only [List.foldl_cons]
      rw [ih (i + ppc) _ (by omega), show min (i * 4) (T * 4) = i * 4 by omega]
      exact runRange_trans body d (i * 4) (min ((i + ppc) * 4) (T * 4)) (T * 4)
        (by omega) (by omega) (by omega)
    · rw [chunkLoop_eq, if_neg (by omega),
        show min (i * 4) (T * 4) = T * 4 by omega]
      exact (runRange_refl body d (T * 4)).symm

/-- The chunked driver equals one pass over the whole buffer. -/
theorem processImageDataInChunks_eq (body : Buf → ℕ → Buf) (W H cs : ℕ)
    (d : Buf) (hcs : 0 < cs) :
    processImageDataInChunks body W H cs d = runRange body d 0 (W * H * 4) := by
  simp only [processImageDataInChunks]
  by_cases hW : 0 < W
  · have h := chunkLoop_foldl body (W * H) (cs * W) (Nat.mul_pos hcs hW)
      (W * H) 0 d (by omega)
    simpa using h
  · have hW0 : W = 0 := by omega
    subst hW0
    rw [chunkLoop_eq]
    simp [runRange_refl]

/-- The chunk byte ranges starting at chunk `i` concatenate to the
remaining byte range. -/
theorem chunkLoop_cover (T ppc : ℕ) (hp : 0 < ppc) :
    ∀ (n i : ℕ), T ≤ i + n →
      ((chunkLoop i T ppc).flatMap (fun a =>
        List.range' (a * 4) (min ((a + ppc) * 4) (T * 4) - a * 4)))
      = List.range' (min (i * 4) (T * 4)) (T * 4 - min (i * 4) (T * 4)) := by
  intro n
  induction n with
  | zero =>
    intro i hTi
    rw [chunkLoop_eq, if_neg (by omega), show min (i * 4) (T * 4) = T * 4 by omega]
    simp
  | succ n ih =>
    intro i hTi
    by_cases hi : i < T
    · rw [chunkLoop_eq, if_pos ⟨hi, hp⟩]
      simp only [List.flatMap_cons]
      rw [ih (i + ppc) (by omega), show min (i * 4) (T * 4) = i * 4 by omega]
      have hstep : min ((i + ppc) * 4) (T * 4) =
          i * 4 + (min ((i + ppc) * 4) (T * 4) - i * 4) := by omega
      nth_rewrite 2 [hstep]
      rw [List.range'_append_1]
      congr 1
      omega
    · rw [chunkLoop_eq, if_neg (by omega),
        show min (i * 4) (T * 4) = T * 4 by omega]
      simp

/-- C8: for every processor body, chunked execution over row-group chunks
produces the same buffer as a single pass over the whole range, and the
chunk byte ranges concatenate to exactly the byte indices `0 .. W*H*4-1`,
each covered once. -/
theorem processImageDataInChunks_equivalence (body : Buf → ℕ → Buf)
    (W H cs : ℕ) (d : Buf) (hcs : 0 < cs) :
    processImageDataInChunks body W H cs d = runRange body d 0 (W * H * 4) ∧
    chunkByteRanges (W * H) (cs * W) = List.range (W * H * 4) := by
  refine ⟨processImageDataInChunks_eq body W H cs d hcs, ?_⟩
  unfold chunkByteRanges
  by_cases hW : 0 < W
  · have h := chunkLoop_cover (W * H) (cs * W) (Nat.mul_pos hcs hW) (W * H) 0
      (by omega)
    rw [List.range_eq_range']
    simpa using h
  · have hW0 : W = 0 := by omega
    subst hW0
    rw [chunkLoop_eq]
    simp

/-- C8 witness: a 2x2 buffer with the default 1024-row chunk size. -/
theorem processImageDataInChunks_equivalence_witness :
    0 < 1024 ∧
    (processImageDataInChunks (fun st a => upd st a 7) 2 2 1024 zeroBuf =
      runRange (fun st a => upd st a 7) zeroBuf 0 (2 * 2 * 4) ∧
    chunkByteRanges (2 * 2) (1024 * 2) = List.range (2 * 2 * 4)) :=
  ⟨by decide,
   processImageDataInChunks_equivalence (fun st a => upd st a 7) 2 2 1024
     zeroBuf (by decide)⟩

/-- A texel body leaves bytes outside its own texel window untouched. -/
theorem texelBody_frame (tf : ℕ → ℕ × ℕ × ℕ × ℕ → ℕ × ℕ × ℕ × ℕ)
    (d : Buf) (i j : ℕ) (h : j < i ∨ i + 4 ≤ j) :
    texelBody tf d i j = d j := by
  simp only [texelBody, upd]
  rw [if_neg (show j ≠ i + 3 by omega), if_neg (show j ≠ i + 2 by omega),
    if_neg (show j ≠ i + 1 by omega), if_neg (show j ≠ i by omega)]

/-- Value written by a texel body inside its own window. -/
theorem texelBody_at (tf : ℕ → ℕ × ℕ × ℕ × ℕ → ℕ × ℕ × ℕ × ℕ)
    (d : Buf) (i k : ℕ) (hk : k < 4) :
    texelBody tf d i (i + k) =
      texelGet k (tf i (d i, d (i + 1), d (i + 2), d (i + 3))) := by
  interval_cases k <;> simp [texelBody, upd, texelGet]

/-- A texel-aligned range of length one visits exactly its start index. -/
theorem texelIdxs_single (s : ℕ) : texelIdxs s (s + 4) = [s] := by
  unfold texelIdxs
  rw [show (s + 4 - s + 3) / 4 = 1 by omega]
  rfl

/-- Running a texel body over an aligned range acts independently on every
texel of the range: byte `j` holds the transformed channel of its texel when
`j` lies in the range and is untouched otherwise. -/
theorem runRange_texelBody (tf : ℕ → ℕ × ℕ × ℕ × ℕ → ℕ × ℕ × ℕ × ℕ) :
    ∀ (n a : ℕ) (d : Buf) (j : ℕ),
      runRange (texelBody tf) d (4 * a) (4 * (a + n)) j =
        if 4 * a ≤ j ∧ j < 4 * (a + n) then
          texelGet (j % 4) (tf (4 * (j / 4)) (readTexel d (j / 4)))
        else d j := by
  intro n
  induction n with
  | zero =>
    intro a d j
    rw [show 4 * (a + 0) = 4 * a by ring, runRange_refl, if_neg (by omega)]
  | succ n ih =>
    intro a d j
    have hsplit : texelIdxs (4 * a) (4 * (a + (n + 1))) =
        4 * a :: texelIdxs (4 * (a + 1)) (4 * ((a + 1) + n)) := by
      rw [show 4 * (a + (n + 1)) = 4 * ((a + 1) + n) by ring]
      rw [texelIdxs_append (4 * a) (4 * (a + 1)) (4 * ((a + 1) + n))
        (by omega) (by omega) (by omega)]
      rw [show 4 * (a + 1) = 4 * a + 4 by ring, texelIdxs_single]
      rw [show 4 * a + 4 = 4 * (a + 1) by ring]
      rfl
    unfold runRange
    rw [hsplit]
    simp only [List.foldl_cons]
    have hrec := ih (a + 1) (texelBody tf d (4 * a)) j
    unfold runRange at hrec
    rw [hrec]
    by_cases h1 : 4 * (a + 1) ≤ j ∧ j < 4 * ((a + 1) + n)
    · rw [if_pos h1, if_pos (by omega)]
      have hfr : readTexel (texelBody tf d (4 * a)) (j / 4) =
          readTexel d (j / 4) := by
        unfold readTexel
        rw [texelBody_frame tf d (4 * a) _ (by omega),
          texelBody_frame tf d (4 * a) _ (by omega),
          texelBody_frame tf d (4 * a) _ (by omega),
          texelBody_frame tf d (4 * a) _ (by omega)]
      rw [hfr]
    · rw [if_neg h1]
      by_cases h2 : 4 * a ≤ j ∧ j < 4 * a + 4
      · obtain ⟨k, hk, hkj⟩ : ∃ k, k < 4 ∧ j = 4 * a + k :=
          ⟨j - 4 * a, by omega, by omega⟩
        subst hkj
        rw [texelBody_at tf d (4 * a) k hk, if_pos (by omega),
          show (4 * a + k) % 4 = k by omega,
          show (4 * a + k) / 4 = a by omega]
        rfl
      · rw [texelBody_frame tf d (4 * a) j (by omega), if_neg (by omega)]

/-- Chunked execution of a texel body, evaluated at one byte. -/
theorem processInChunks_texelBody (tf : ℕ → ℕ × ℕ × ℕ × ℕ → ℕ × ℕ × ℕ × ℕ)
    (W H : ℕ) (d : Buf) (j : ℕ) :
    processImageDataInChunks (texelBody tf) W H 1024 d j =
      if j < W * H * 4 then
        texelGet (j % 4) (tf (4 * (j / 4)) (readTexel d (j / 4)))
      else d j := by
  rw [congrFun
    (processImageDataInChunks_eq (texelBody tf) W H 1024 d (by omega)) j]
  have h2 := runRange_texelBody tf (W * H) 0 d j
  rw [show 4 * (0 + W * H) = W * H * 4 by ring, Nat.mul_zero] at h2
  rw [h2]
  by_cases hj : j < W * H * 4
  · rw [if_pos (by omega), if_pos hj]
  · rw [if_neg (by omega), if_neg hj]

/-- Chunked execution of a texel body, evaluated at one texel. -/
theorem processInChunks_readTexel (tf : ℕ → ℕ × ℕ × ℕ × ℕ → ℕ × ℕ × ℕ × ℕ)
    (W H : ℕ) (d : Buf) (p : ℕ) (hp : p < W * H) :
    readTexel (processImageDataInChunks (texelBody tf) W H 1024 d) p =
      tf (4 * p) (readTexel d p) := by
  have h0 := processInChunks_texelBody tf W H d (4 * p)
  have h1 := processInChunks_texelBody tf W H d (4 * p + 1)
  have h2 := processInChunks_texelBody tf W H d (4 * p + 2)
  have h3 := processInChunks_texelBody tf W H d (4 * p + 3)
  rw [if_pos (by omega), show (4 * p) % 4 = 0 by omega,
    show 4 * p / 4 = p by omega] at h0
  rw [if_pos (by omega), show (4 * p + 1) % 4 = 1 by omega,
    show (4 * p + 1) / 4 = p by omega] at h1
  rw [if_pos (by omega), show (4 * p + 2) % 4 = 2 by omega,
    show (4 * p + 2) / 4 = p by omega] at h2
  rw [if_pos (by omega), show (4 * p + 3) % 4 = 3 by omega,
    show (4 * p + 3) / 4 = p by omega] at h3
  show (_, _, _, _) = _
  rw [h0, h1, h2, h3]
  rfl

/-- The color-bleed body is the texel transform `colorBleedTf`; the reads of
the green and blue bytes in the source happen after the red write but touch
distinct bytes. -/
theorem colorBleedBody_eq_texelBody (rm gm bm : ℚ) :
    colorBleedBody rm gm bm = texelBody (colorBleedTf rm gm bm) := by
  funext d i j
  simp only [colorBleedBody, texelBody, colorBleedTf, upd]
  split_ifs <;> simp_all

/-- Helper bound: a texel address inside the canvas is inside the data. -/
theorem texel_addr_lt (W H y xcol : ℕ) (hy : y < H) (hx : xcol < W) :
    (y * W + xcol) * 4 < W * H * 4 := by
  have h1 : y * W + xcol < W * H := by
    have h2 : y * W + W ≤ H * W := by
      calc y * W + W = (y + 1) * W := by ring
        _ ≤ H * W := Nat.mul_le_mul_right W hy
    have h3 : H * W = W * H := Nat.mul_comm H W
    omega
  omega

/-- The chromatic-aberration body is the texel transform `chromaticTf`. -/
theorem chromaticBody_eq_texelBody (src : Buf) (W offset len : ℕ) :
    chromaticBody src W offset len = texelBody (chromaticTf src W offset len) := by
  funext d i j
  rcases eq_or_ne j i with h0 | h0
  · subst h0
    simp [chromaticBody, texelBody, chromaticTf, upd, ite_apply]
  rcases eq_or_ne j (i + 1) with h1 | h1
  · subst h1
    simp [chromaticBody, texelBody, chromaticTf, upd, ite_apply]
  rcases eq_or_ne j (i + 2) with h2 | h2
  · subst h2
    simp [chromaticBody, texelBody, chromaticTf, upd, ite_apply]
  rcases eq_or_ne j (i + 3) with h3 | h3
  · subst h3
    simp [chromaticBody, texelBody, chromaticTf, upd, ite_apply]
  · simp [chromaticBody, texelBody, chromaticTf, upd, ite_apply, h0, h1, h2, h3]

/-- The color-shift body is the texel transform `colorShiftTf`. -/
theorem colorShiftBody_eq_texelBody (sine : ℚ → ℝ) (intensity : ℚ) :
    colorShiftBody sine intensity = texelBody (colorShiftTf sine intensity) := by
  funext d i j
  simp only [colorShiftBody, texelBody, colorShiftTf, upd]
  split_ifs <;> simp_all

/-- C4: at intensity `c` in `[1,100]` with `t = c/100`, the color-bleed
stage maps every texel of the buffer to
`(min(255, R*(1+0.3t)), max(0, G*(1-0.2t)), min(255, B*(1+0.4t)), A)`,
stored as bytes. -/
theorem applyColorBleed_formula (c W H : ℕ) (hc1 : 1 ≤ c) (hc2 : c ≤ 100)
    (d : Buf) (p : ℕ) (hp : p < W * H) :
    readTexel (applyColorBleed c W H d) p =
      colorBleedSpecTexel ((c : ℚ) / 100) (readTexel d p) := by
  simp only [applyColorBleed]
  rw [if_neg (show ¬c = 0 by omega), colorBleedBody_eq_texelBody,
    processInChunks_readTexel _ W H d p hp]
  simp only [colorBleedTf, colorBleedSpecTexel]
  rw [show (c : ℚ) / 100 * 0.3 = 0.3 * ((c : ℚ) / 100) from mul_comm _ _,
    show (c : ℚ) / 100 * 0.2 = 0.2 * ((c : ℚ) / 100) from mul_comm _ _,
    show (c : ℚ) / 100 * 0.4 = 0.4 * ((c : ℚ) / 100) from mul_comm _ _]

/-- C4 witness: the 1x1 gray texel at colorBleed 100 becomes
R=130, G=80, B=140. -/
theorem applyColorBleed_formula_witness :
    (1 ≤ 100 ∧ 100 ≤ 100 ∧ 0 < 1 * 1) ∧
    readTexel (applyColorBleed 100 1 1 grayBuf) 0 = (130, 80, 140, 255) := by
  refine ⟨by decide, ?_⟩
  rw [applyColorBleed_formula 100 1 1 (by decide) (by decide) grayBuf 0
    (by decide)]
  norm_num [colorBleedSpecTexel, readTexel, grayBuf, clampByte, roundHalfEven]
  omega

/-- C5: at intensity `c` in `[1,100]` with `offset = floor(8*c/100)`, the
chromatic-aberration stage gives every texel `(x, y)` the pre-stage red at
`(min(W-1, x+offset), y)` and the pre-stage blue at `(max(0, x-offset), y)`,
with green and alpha unchanged; all reads are taken from the buffer as it
was before the stage began. -/
theorem applyChromaticAberration_formula (c W H : ℕ) (hc1 : 1 ≤ c)
    (hc2 : c ≤ 100) (d : Buf) (p : ℕ) (hp : p < W * H) :
    readTexel (applyChromaticAberration c W H d) p =
      chromaticSpecTexel W (Nat.floor ((c : ℚ) / 100 * 8)) d p := by
  have hW : 0 < W := by
    rcases Nat.eq_zero_or_pos W with h | h
    · subst h
      simp at hp
    · exact h
  simp only [applyChromaticAberration]
  rw [if_neg (show ¬c = 0 by omega), chromaticBody_eq_texelBody,
    processInChunks_readTexel _ W H d p hp]
  simp only [chromaticTf, chromaticSpecTexel, readTexel]
  rw [show 4 * p / 4 = p by omega]
  have hy : p / W < H := Nat.div_lt_of_lt_mul hp
  have hred : (p / W * W + min (W - 1) (p % W + Nat.floor ((c : ℚ) / 100 * 8)))
      * 4 < W * H * 4 :=
    texel_addr_lt W H (p / W) _ hy (by omega)
  have hblue : (p / W * W +
      (max 0 (((p % W : ℕ) : ℤ) - (Nat.floor ((c : ℚ) / 100 * 8) : ℤ))).toNat)
      * 4 < W * H * 4 := by
    refine texel_addr_lt W H (p / W) _ hy ?_
    have hx : p % W < W := Nat.mod_lt p hW
    omega
  rw [if_pos hred, if_pos hblue,
    show (max 0 (((p % W : ℕ) : ℤ) - (Nat.floor ((c : ℚ) / 100 * 8) : ℤ))).toNat
      = p % W - Nat.floor ((c : ℚ) / 100 * 8) by omega]

/-- C5 witness: the 4x1 strip at 50% shifts red toward higher x and blue
toward lower x by exactly floor(8*0.5) = 4 pixels, clamped at the edges:
texel 0 takes the red of texel 3 and keeps the blue of texel 0. -/
theorem applyChromaticAberration_formula_witness :
    (1 ≤ 50 ∧ 50 ≤ 100 ∧ 0 < 4 * 1) ∧
    readTexel (applyChromaticAberration 50 4 1 stripBuf) 0 = (40, 11, 12, 255) := by
  refine ⟨by decide, ?_⟩
  rw [applyChromaticAberration_formula 50 4 1 (by decide) (by decide) stripBuf 0
    (by decide)]
  rw [show Nat.floor (((50 : ℕ) : ℚ) / 100 * 8) = 4 by norm_num]
  decide

/-- Ties-to-even rounding never goes below the floor. -/
theorem roundHalfEvenR_ge_floor (x : ℝ) : ⌊x⌋ ≤ roundHalfEvenR x := by
  simp only [roundHalfEvenR]
  split_ifs <;> omega

/-- A clamped-array store is at least any byte bound below the stored
value. -/
theorem clampByteR_ge (n : ℕ) (x : ℝ) (hn255 : n ≤ 255) (hnx : (n : ℝ) ≤ x) :
    n ≤ clampByteR x := by
  simp only [clampByteR]
  split_ifs with h1 h2
  · have h3 : (n : ℝ) ≤ 0 := le_trans hnx h1
    have h4 : n = 0 := by exact_mod_cast le_antisymm h3 (Nat.cast_nonneg n)
    omega
  · exact hn255
  · have h3 : (n : ℤ) ≤ ⌊x⌋ := Int.le_floor.mpr (by exact_mod_cast hnx)
    have h4 := roundHalfEvenR_ge_floor x
    omega

/-- A clamped-array store of an in-range value whose fraction exceeds one
half rounds up to the next integer. -/
theorem clampByteR_eq_round_up (x : ℝ) (n : ℤ) (hf : ⌊x⌋ = n) (hpos : 0 < x)
    (hlt : x < 255) (hfr : (n : ℝ) + 1 / 2 < x) :
    clampByteR x = (n + 1).toNat := by
  simp only [clampByteR, roundHalfEvenR, hf]
  rw [if_neg (by linarith), if_neg (by linarith),
    if_neg (show ¬(x - (n : ℝ) < 1 / 2) by push_neg; linarith),
    if_pos (show (1 : ℝ) / 2 < x - (n : ℝ) by linarith)]

/-- C6 (amended): at intensity `c` in `[1,100]` with `t = c/100`, the
color-shift stage maps the texel at linear texel index `i` with
`shift = sin(0.001*(4i))*t*100` (the sine argument is the byte offset of
the texel, not the texel index): `R += shift`, `G -= shift*0.5`,
`B += shift*0.8`, each clamped to `[0,255]` and stored as a byte, alpha
unchanged. -/
theorem applyColorShift_formula (c W H : ℕ) (hc1 : 1 ≤ c) (hc2 : c ≤ 100)
    (d : Buf) (p : ℕ) (hp : p < W * H) :
    readTexel (applyColorShift sinQ c W H d) p =
      colorShiftSpecTexel ((c : ℚ) / 100) p (readTexel d p) := by
  simp only [applyColorShift]
  rw [if_neg (show ¬c = 0 by omega), colorShiftBody_eq_texelBody,
    processInChunks_readTexel _ W H d p hp]
  simp only [colorShiftTf, colorShiftSpecTexel, sinQ]
  rw [show ((((4 * p : ℕ) : ℚ) * 0.001 : ℚ) : ℝ) = 0.001 * ((4 * p : ℕ) : ℝ)
    by push_cast; ring]

/-- C6 witness: the amended formula at intensity 100 on the 1x1 gray
texel. -/
theorem applyColorShift_formula_witness :
    (1 ≤ 100 ∧ 100 ≤ 100 ∧ 0 < 1 * 1) ∧
    readTexel (applyColorShift sinQ 100 1 1 grayBuf) 0 =
      colorShiftSpecTexel (((100 : ℕ) : ℚ) / 100) 0 (readTexel grayBuf 0) :=
  ⟨by decide,
   applyColorShift_formula 100 1 1 (by decide) (by decide) grayBuf 0 (by decide)⟩

/-- C6, counterexample to the claim as stated: on a 101x1 all-zero buffer at
intensity 100, the texel at linear texel index 100 (byte offset 400) gets
red `clamp(sin(0.4)*100)`, at least 38, whereas the claimed formula
`sin(0.001*100)*100 = sin(0.1)*100` stores exactly 10. -/
theorem applyColorShift_texel_index_counterexample :
    readTexel (applyColorShift sinQ 100 101 1 zeroBuf) 100 ≠
      colorShiftClaimTexel ((100 : ℚ) / 100) 100 (readTexel zeroBuf 100) := by
  have hread : readTexel zeroBuf 100 = (0, 0, 0, 0) := rfl
  have hstage : readTexel (applyColorShift sinQ 100 101 1 zeroBuf) 100 =
      colorShiftTf sinQ (((100 : ℕ) : ℚ) / 100) (4 * 100)
        (readTexel zeroBuf 100) := by
    simp only [applyColorShift]
    rw [if_neg (show ¬(100 : ℕ) = 0 by norm_num), colorShiftBody_eq_texelBody,
      processInChunks_readTexel _ 101 1 zeroBuf 100 (by norm_num)]
  have hs4lt : Real.sin 0.4 < 0.4 := Real.sin_lt (by norm_num)
  have hs4gt : (0.384 : ℝ) < Real.sin 0.4 := by
    nlinarith [Real.sin_gt_sub_cube (show (0 : ℝ) < 0.4 by norm_num)
      (show (0.4 : ℝ) ≤ 1 by norm_num)]
  have hs1lt : Real.sin 0.1 < 0.1 := Real.sin_lt (by norm_num)
  have hs1gt : (0.0997 : ℝ) < Real.sin 0.1 := by
    nlinarith [Real.sin_gt_sub_cube (show (0 : ℝ) < 0.1 by norm_num)
      (show (0.1 : ℝ) ≤ 1 by norm_num)]
  have hcl : 38 ≤ (colorShiftTf sinQ (((100 : ℕ) : ℚ) / 100) (4 * 100)
      (readTexel zeroBuf 100)).1 := by
    simp only [colorShiftTf, hread, sinQ]
    rw [show ((((4 * 100 : ℕ) : ℚ) * 0.001 : ℚ) : ℝ) = 0.4 by norm_num,
      show (((((100 : ℕ) : ℚ)) / 100 : ℚ) : ℝ) = 1 by norm_num,
      show ((0 : ℕ) : ℝ) + Real.sin 0.4 * 1 * 100 = Real.sin 0.4 * 100 by
        push_cast; ring]
    rw [min_eq_right (by linarith), max_eq_right (by linarith)]
    exact clampByteR_ge 38 _ (by norm_num) (by linarith)
  have hcr : (colorShiftClaimTexel ((100 : ℚ) / 100) 100
      (readTexel zeroBuf 100)).1 = 10 := by
    simp only [colorShiftClaimTexel, hread]
    rw [show (0.001 : ℝ) * ((100 : ℕ) : ℝ) = 0.1 by norm_num,
      show (((100 : ℚ) / 100 : ℚ) : ℝ) = 1 by norm_num,
      show ((0 : ℕ) : ℝ) + Real.sin 0.1 * 1 * 100 = Real.sin 0.1 * 100 by
        push_cast; ring]
    rw [min_eq_right (by linarith), max_eq_right (by linarith)]
    have hf : ⌊Real.sin 0.1 * 100⌋ = 9 := by
      rw [Int.floor_eq_iff]
      constructor
      · push_cast
        linarith
      · push_cast
        linarith
    rw [clampByteR_eq_round_up _ 9 hf (by linarith) (by linarith)
      (by push_cast; linarith)]
    rfl
  rw [hstage]
  intro h
  have h1 := congrArg Prod.fst h
  simp only at h1
  rw [hcr] at h1
  omega

/-- Row-major flattening: a nested loop over rows and columns visits the
same elements as a single loop with div/mod indexing. -/
theorem range_flatMap_map {α : Type} (W : ℕ) (hW : 0 < W) (f : ℕ → ℕ → α) :
    ∀ n, (List.range n).flatMap (fun r => (List.range W).map (f r)) =
      (List.range (n * W)).map (fun k => f (k / W) (k % W)) := by
  intro n
  induction n with
  | zero => simp
  | succ n ih =>
    rw [List.range_succ, List.flatMap_append, ih,
      show (n + 1) * W = n * W + W by ring, List.range_add, List.map_append]
    congr 1
    simp only [List.flatMap_cons, List.flatMap_nil, List.append_nil,
      List.map_map]
    refine List.map_congr_left ?_
    intro x hx
    have hxW : x < W := List.mem_range.mp hx
    simp only [Function.comp_apply]
    rw [show n * W + x = W * n + x by ring, Nat.mul_add_div hW,
      Nat.mul_add_mod, Nat.div_eq_of_lt hxW, Nat.mod_eq_of_lt hxW,
      Nat.add_zero]

/-- The extracted band texels, indexed linearly. -/
theorem bandPixels_eq_map (W y endY : ℕ) (hW : 0 < W) (st : Buf) :
    bandPixels W y endY st = (List.range ((endY - y) * W)).map
      (fun k => pixelAt st W (y + k / W) (k % W)) := by
  unfold bandPixels
  exact range_flatMap_map W hW (fun row x => pixelAt st W (y + row) x)
    (endY - y)

/-- Writing back pixels that are exactly the texels already present leaves
the buffer unchanged. -/
theorem writeBandAux_id (W y endY : ℕ) (orig : Buf) :
    ∀ (ps : List RowPixel) (k : ℕ) (st : Buf),
      (∀ j, st j = orig j) →
      (∀ (m : ℕ) (hm : m < ps.length),
        y + (k + m) / W < endY ∧
        ps.get ⟨m, hm⟩ = pixelAt orig W (y + (k + m) / W) ((k + m) % W)) →
      ∀ j, writeBandAux W y endY k ps st j = orig j := by
  intro ps
  induction ps with
  | nil =>
    intro k st hst _ j
    exact hst j
  | cons px rest ih =>
    intro k st hst hget j
    obtain ⟨hlt0, hpx⟩ := hget 0 (by simp)
    rw [Nat.add_zero] at hlt0
    have hpx2 : px = pixelAt orig W (y + k / W) (k % W) := by
      have h := hpx
      simp only [Nat.add_zero] at h
      simpa using h
    simp only [writeBandAux]
    rw [if_pos hlt0]
    refine ih (k + 1) _ ?_ ?_ j
    · intro j2
      simp only [upd]
      split_ifs with e3 e2 e1 e0
      · rw [e3, hpx2]
        rfl
      · rw [e2, hpx2]
        rfl
      · rw [e1, hpx2]
        rfl
      · rw [e0, hpx2]
        rfl
      · exact hst j2
    · intro m hm
      have h := hget (m + 1) (by simpa using Nat.succ_lt_succ hm)
      rw [show k + (m + 1) = k + 1 + m by omega] at h
      exact h

/-- C10: the per-band pixel-sort operation (extract the band in row-major
order, stable-sort ascending by brightness, write back in row-major order)
is idempotent: on a band whose texels are already sorted ascending by
brightness it leaves every byte of the buffer unchanged. -/
theorem sortBand_idempotent (W y endY : ℕ) (st : Buf) (hW : 0 < W)
    (hsorted : List.Sorted byBrightness (bandPixels W y endY st)) :
    ∀ j, sortBand W y endY st j = st j := by
  intro j
  unfold sortBand
  rw [List.Sorted.insertionSort_eq hsorted]
  refine writeBandAux_id W y endY st (bandPixels W y endY st) 0 st
    (fun _ => rfl) ?_ j
  intro m hm
  have hmlen : m < (endY - y) * W := by
    have := hm
    rw [bandPixels_eq_map W y endY hW st] at this
    simpa using this
  have hdiv : m / W < endY - y := by
    rw [Nat.div_lt_iff_lt_mul hW]
    omega
  have hpos : 0 < endY - y := by
    rcases Nat.eq_zero_or_pos (endY - y) with h | h
    · rw [h, Nat.zero_mul] at hmlen
      omega
    · exact h
  constructor
  · rw [Nat.zero_add]
    omega
  · rw [Nat.zero_add]
    have hget : (bandPixels W y endY st).get ⟨m, hm⟩ =
        pixelAt st W (y + m / W) (m % W) := by
      have hcongr := bandPixels_eq_map W y endY hW st
      rw [List.get_of_eq hcongr]
      simp
    exact hget

/-- C10 witness: a 1x2 band already sorted by brightness is unchanged at
byte 0 (and every other byte, by the theorem). -/
theorem sortBand_idempotent_witness :
    (0 < 1 ∧ List.Sorted byBrightness (bandPixels 1 0 2 bandBuf)) ∧
    sortBand 1 0 2 bandBuf 0 = bandBuf 0 := by
  have hs : List.Sorted byBrightness (bandPixels 1 0 2 bandBuf) := by
    have hlist : bandPixels 1 0 2 bandBuf =
        [{ r := 10, g := 10, b := 10, a := 255, brightness := 10 },
         { r := 20, g := 20, b := 20, a := 255, brightness := 20 }] := by
      norm_num [bandPixels, bandBuf, List.range_succ, List.flatMap_append,
        List.flatMap_cons, List.flatMap_nil]
    rw [hlist]
    simp only [List.sorted_cons, List.mem_singleton, List.sorted_singleton,
      byBrightness]
    norm_num
  exact ⟨⟨by decide, hs⟩, sortBand_idempotent 1 0 2 bandBuf (by decide) hs 0⟩

/-- Disabled color bleed is the identity. -/
theorem applyColorBleed_zero (W H : ℕ) (d : Buf) :
    applyColorBleed 0 W H d = d := by
  simp [applyColorBleed]

/-- Disabled chromatic aberration is the identity. -/
theorem applyChromaticAberration_zero (W H : ℕ) (d : Buf) :
    applyChromaticAberration 0 W H d = d := by
  simp [applyChromaticAberration]

/-- Disabled datamosh is the identity. -/
theorem applyDatamosh_zero (rnd : ℕ → ℚ) (W H : ℕ) (d : Buf) :
    applyDatamosh rnd 0 W H d = d := by
  simp [applyDatamosh]

/-- Disabled displacement is the identity. -/
theorem applyDisplacement_zero (sine : ℚ → ℝ) (W H : ℕ) (d : Buf) :
    applyDisplacement sine 0 W H d = d := by
  simp [applyDisplacement]

/-- Disabled pixel sort is the identity. -/
theorem applyPixelSort_zero (rnd : ℕ → ℚ) (W H : ℕ) (d : Buf) :
    applyPixelSort rnd 0 W H d = d := by
  simp [applyPixelSort]

/-- Disabled color shift is the identity. -/
theorem applyColorShift_zero (sine : ℚ → ℝ) (W H : ℕ) (d : Buf) :
    applyColorShift sine 0 W H d = d := by
  simp [applyColorShift]

/-- Disabled pixelation is the identity. -/
theorem applyPixelation_zero (W H : ℕ) (d : Buf) :
    applyPixelation 0 W H d = d := by
  simp [applyPixelation]

/-- Disabled noise is the identity. -/
theorem applyNoise_zero (rndA rndB : ℕ → ℚ) (W H : ℕ) (d : Buf) :
    applyNoise rndA rndB 0 W H d = d := by
  simp [applyNoise]

/-- Disabled anaglyph is the identity. -/
theorem applyAnaglyph3D_zero (anaglyphOffset W H : ℕ) (d : Buf) :
    applyAnaglyph3D 0 anaglyphOffset W H d = d := by
  simp [applyAnaglyph3D]

/-- A disabled scanlines stage leaves the canvas unchanged and schedules no
deferred stroke. -/
theorem drawScanlines_zero (W H : ℕ) (d : Buf) :
    drawScanlines 0 W H d = (d, none) := by
  simp [drawScanlines]

/-- A cleared CRT bezel flag is the identity. -/
theorem drawCRTBezel_false (W H : ℕ) (d : Buf) :
    drawCRTBezel false W H d = d := by
  simp [drawCRTBezel]

/-- C1: with every one of the ten intensity parameters at 0 and the CRT
bezel flag off, each of the eleven stages leaves the buffer unchanged, and
therefore a pipeline run returns the working buffer (the resized source)
byte-identical. -/
theorem pipeline_identity_when_all_disabled (s : EffectSettings)
    (sine : ℚ → ℝ) (r1 r2 r3 r4 : ℕ → ℚ) (W H : ℕ) (d : Buf)
    (h1 : s.colorBleed = 0) (h2 : s.chromatic = 0) (h3 : s.datamosh = 0)
    (h4 : s.displacement = 0) (h5 : s.pixelSort = 0) (h6 : s.colorShift = 0)
    (h7 : s.pixelation = 0) (h8 : s.noise = 0) (h9 : s.anaglyph = 0)
    (h10 : s.scanlines = 0) (h11 : s.crtBezel = false) :
    (applyColorBleed s.colorBleed W H d = d ∧
     applyChromaticAberration s.chromatic W H d = d ∧
     applyDatamosh r1 s.datamosh W H d = d ∧
     applyDisplacement sine s.displacement W H d = d ∧
     applyPixelSort r2 s.pixelSort W H d = d ∧
     applyColorShift sine s.colorShift W H d = d ∧
     applyPixelation s.pixelation W H d = d ∧
     applyNoise r3 r4 s.noise W H d = d ∧
     applyAnaglyph3D s.anaglyph s.anaglyphOffset W H d = d ∧
     drawScanlines s.scanlines W H d = (d, none) ∧
     drawCRTBezel s.crtBezel W H d = d) ∧
    applyEffectsSequentially sine r1 r2 r3 r4 s W H d = d := by
  refine ⟨⟨?_, ?_, ?_, ?_, ?_, ?_, ?_, ?_, ?_, ?_, ?_⟩, ?_⟩
  · rw [h1]
    exact applyColorBleed_zero W H d
  · rw [h2]
    exact applyChromaticAberration_zero W H d
  · rw [h3]
    exact applyDatamosh_zero r1 W H d
  · rw [h4]
    exact applyDisplacement_zero sine W H d
  · rw [h5]
    exact applyPixelSort_zero r2 W H d
  · rw [h6]
    exact applyColorShift_zero sine W H d
  · rw [h7]
    exact applyPixelation_zero W H d
  · rw [h8]
    exact applyNoise_zero r3 r4 W H d
  · rw [h9]
    exact applyAnaglyph3D_zero s.anaglyphOffset W H d
  · rw [h10]
    exact drawScanlines_zero W H d
  · rw [h11]
    exact drawCRTBezel_false W H d
  · simp only [applyEffectsSequentially, h1, h2, h3, h4, h5, h6, h7, h8, h9,
      h10, h11, applyColorBleed_zero, applyChromaticAberration_zero,
      applyDatamosh_zero, applyDisplacement_zero, applyPixelSort_zero,
      applyColorShift_zero, applyPixelation_zero, applyNoise_zero,
      applyAnaglyph3D_zero, drawScanlines_zero, drawCRTBezel_false]

/-- C1 witness: the all-disabled settings record leaves a concrete buffer
untouched through the whole pipeline. -/
theorem pipeline_identity_when_all_disabled_witness :
    (disabledSettings.colorBleed = 0 ∧ disabledSettings.chromatic = 0 ∧
     disabledSettings.datamosh = 0 ∧ disabledSettings.displacement = 0 ∧
     disabledSettings.pixelSort = 0 ∧ disabledSettings.colorShift = 0 ∧
     disabledSettings.pixelation = 0 ∧ disabledSettings.noise = 0 ∧
     disabledSettings.anaglyph = 0 ∧ disabledSettings.scanlines = 0 ∧
     disabledSettings.crtBezel = false) ∧
    applyEffectsSequentially sinQ zeroOracle zeroOracle zeroOracle zeroOracle
      disabledSettings 1 1 grayBuf = grayBuf :=
  ⟨⟨rfl, rfl, rfl, rfl, rfl, rfl, rfl, rfl, rfl, rfl, rfl⟩,
   (pipeline_identity_when_all_disabled disabledSettings sinQ zeroOracle
     zeroOracle zeroOracle zeroOracle 1 1 grayBuf rfl rfl rfl rfl rfl rfl rfl
     rfl rfl rfl rfl).2⟩

/-- Beyond the last gradient stop the vignette alpha is the 0.8 of the
corner stop. -/
theorem bezelAlpha_of_one_lt (s : ℝ) (hs : 1 < s) : bezelAlpha s = 0.8 := by
  unfold bezelAlpha
  rw [if_neg (by linarith), if_neg (by linarith)]

/-- On a 1x1 canvas the single pixel sits in the border band and past the
last vignette stop, so the bezel scales its red byte by `1 - 0.8` and then
by `1 - 0.5`, each store rounded. -/
theorem drawCRTBezel_oneByOne (dd : Buf) : drawCRTBezel true 1 1 dd 0 =
    clampByteR ((clampByteR ((dd 0 : ℝ) * (1 - 0.8)) : ℝ) * (1 - 0.5)) := by
  have hs2pos : 0 < Real.sqrt 2 := Real.sqrt_pos.mpr (by norm_num)
  have hs2lt : Real.sqrt 2 < 2 :=
    (Real.sqrt_lt' (by norm_num : (0 : ℝ) < 2)).mpr (by norm_num)
  have h1 : 1 < (Real.sqrt 2)⁻¹ / (1 / 2) := by
    rw [show (Real.sqrt 2)⁻¹ / (1 / 2 : ℝ) = 2 / Real.sqrt 2 by ring]
    exact (one_lt_div hs2pos).mpr hs2lt
  simp only [drawCRTBezel]
  norm_num
  rw [bezelAlpha_of_one_lt _ h1]
  norm_num

/-- The bezel output on the red-23 texel: 23*0.2 = 4.6 rounds to 5, then
5*0.5 = 2.5 rounds to even 2. -/
theorem drawCRTBezel_redBuf : drawCRTBezel true 1 1 redBuf 0 = 2 := by
  rw [drawCRTBezel_oneByOne redBuf, show redBuf 0 = 23 from rfl,
    show clampByteR (((23 : ℕ) : ℝ) * (1 - 0.8)) = 5 by
      norm_num [clampByteR, roundHalfEvenR]
      decide]
  norm_num [clampByteR, roundHalfEvenR]
  decide

/-- The scanline stroke on the red-23 texel: 23*0.7 = 16.1 rounds to 16. -/
theorem scanlinesStroke_redBuf : scanlinesStroke 100 1 1 redBuf 0 = 16 := by
  norm_num [scanlinesStroke, redBuf, clampByte, roundHalfEven]
  simp only [Int.fract]
  norm_num
  decide

/-- Program order on the red-23 texel: bezel first gives byte 2, then the
deferred stroke gives 2*0.7 = 1.4, rounded to 1. -/
theorem scanlinesStroke_after_bezel :
    scanlinesStroke 100 1 1 (drawCRTBezel true 1 1 redBuf) 0 = 1 := by
  norm_num [scanlinesStroke, drawCRTBezel_redBuf, clampByte, roundHalfEven,
    Int.toNat_ofNat]
  simp only [Int.fract]
  norm_num

/-- Claimed order on the red-23 texel: the stroke first gives byte 16, then
the bezel gives 16*0.2 = 3.2 rounded to 3 and 3*0.5 = 1.5 rounded to even
2. -/
theorem drawCRTBezel_after_stroke :
    drawCRTBezel true 1 1 (scanlinesStroke 100 1 1 redBuf) 0 = 2 := by
  rw [drawCRTBezel_oneByOne, scanlinesStroke_redBuf,
    show clampByteR (((16 : ℕ) : ℝ) * (1 - 0.8)) = 3 by
      norm_num [clampByteR, roundHalfEvenR]
      decide]
  norm_num [clampByteR, roundHalfEvenR]
  decide

/-- C7, counterexample to the claim as stated: with every pixel-data
parameter disabled, scanlines at 100 and the bezel on, the claimed order
(scanlines composited onto the buffer before the CRT bezel) would produce
exactly `drawCRTBezel (scanlinesStroke redBuf)`, byte 2 at index 0, but
the program run composites the bezel before the deferred scanlines stroke
and produces byte 1 there. -/
theorem applyEffectsSequentially_overlay_order_counterexample :
    applyEffectsSequentially sinQ zeroOracle zeroOracle zeroOracle zeroOracle
      overlaySettings 1 1 redBuf 0 ≠
    drawCRTBezel overlaySettings.crtBezel 1 1
      (scanlinesStroke overlaySettings.scanlines 1 1 redBuf) 0 := by
  have hpipe : applyEffectsSequentially sinQ zeroOracle zeroOracle zeroOracle
      zeroOracle overlaySettings 1 1 redBuf =
      scanlinesStroke 100 1 1 (drawCRTBezel true 1 1 redBuf) := by
    simp only [applyEffectsSequentially,
      show overlaySettings.colorBleed = 0 from rfl,
      show overlaySettings.chromatic = 0 from rfl,
      show overlaySettings.datamosh = 0 from rfl,
      show overlaySettings.displacement = 0 from rfl,
      show overlaySettings.pixelSort = 0 from rfl,
      show overlaySettings.colorShift = 0 from rfl,
      show overlaySettings.pixelation = 0 from rfl,
      show overlaySettings.noise = 0 from rfl,
      show overlaySettings.anaglyph = 0 from rfl,
      show overlaySettings.scanlines = 100 from rfl,
      show overlaySettings.crtBezel = true from rfl,
      applyColorBleed_zero, applyChromaticAberration_zero, applyDatamosh_zero,
      applyDisplacement_zero, applyPixelSort_zero, applyColorShift_zero,
      applyPixelation_zero, applyNoise_zero, applyAnaglyph3D_zero,
      drawScanlines]
    norm_num
  rw [show overlaySettings.crtBezel = true from rfl,
    show overlaySettings.scanlines = 100 from rfl,
    congrFun hpipe 0, scanlinesStroke_after_bezel, drawCRTBezel_after_stroke]
  decide
